import Mathlib

/-!
Verification of the mock secure-messaging protocol in `demo_complete.py`
(classes `MockClient` and `MockServer`).

Modelling conventions (shallow embedding):
- A Python `str` is modelled by its UTF-8 byte sequence, as a `List Nat`
  (every byte below 256).  A Python `bytes` value is modelled the same way.
  Under this model `str.encode()` is the identity and `bytes.decode()`
  succeeds exactly on valid UTF-8 byte sequences (strict mode), which we
  check with an explicit UTF-8 acceptor (`validUTF8`).
- Functions that may raise a Python exception return `Option`; `none`
  models an uncaught exception, `some` a normal return value.
- The mutable server object is explicit state (`ServerState`); each method
  returns the updated state together with the response dictionary, which is
  modelled by the closed variant type `Response`.
- `datetime.now().isoformat()` is an effect; it is passed in as the
  explicit `now` argument of `sendMessage`.
-/

/-- Python strings and byte strings, modelled as UTF-8 byte sequences. -/
abbrev Str := List Nat

/-- Byte sequence of an ASCII literal (used for the string literals of the
Python source; all of them are ASCII, so the code points are the bytes). -/
def ascii (s : String) : Str := s.data.map Char.toNat

/-- Python `s.startswith(p)` on byte strings: `startsWith p s`. -/
def startsWith : Str → Str → Bool
  | [], _ => true
  | _ :: _, [] => false
  | p :: ps, b :: bs => p == b && startsWith ps bs

/-- Python `s.split(sep)` for a one-byte separator: always returns at least
one piece, empty pieces included, exactly like `str.split`. -/
def pySplit (sep : Nat) : Str → List Str
  | [] => [[]]
  | b :: bs =>
    if b = sep then [] :: pySplit sep bs
    else
      match pySplit sep bs with
      | [] => [[b]]
      | cur :: rest => (b :: cur) :: rest

/-- The standard base64 alphabet, as bytes. -/
def b64chars : Str :=
  ascii "ABCDEFGHIJKLMNOPQRSTUVWXYZabcdefghijklmnopqrstuvwxyz0123456789+/"

/-- `base64.b64encode` on bytes (standard alphabet, with `=` padding). -/
def b64encode : Str → Str
  | [] => []
  | [a] =>
      [b64chars.getD (a / 4) 0, b64chars.getD (a % 4 * 16) 0, 61, 61]
  | [a, b] =>
      [b64chars.getD (a / 4) 0, b64chars.getD (a % 4 * 16 + b / 16) 0,
       b64chars.getD (b % 16 * 4) 0, 61]
  | a :: b :: d :: rest =>
      b64chars.getD (a / 4) 0 :: b64chars.getD (a % 4 * 16 + b / 16) 0 ::
      b64chars.getD (b % 16 * 4 + d / 64) 0 :: b64chars.getD (d % 64) 0 ::
      b64encode rest

/-- Index of a byte in the base64 alphabet. -/
def b64valAux (c : Nat) : Str → Nat → Option Nat
  | [], _ => none
  | x :: xs, i => if x = c then some i else b64valAux c xs (i + 1)

/-- The 6-bit value of a base64 alphabet byte, `none` for other bytes. -/
def b64val (c : Nat) : Option Nat := b64valAux c b64chars 0

/-- Bytes kept by `base64.b64decode` before decoding (the Python decoder
discards bytes outside the alphabet and the padding byte). -/
def b64keep (c : Nat) : Bool := c == 61 || (b64val c).isSome

/-- Decode a base64 byte string four characters at a time; `none` models
`binascii.Error` (incorrect padding or stray data after padding). -/
def b64decodeQuads : Str → Option Str
  | c1 :: c2 :: c3 :: c4 :: rest =>
    (b64val c1).bind fun v1 =>
    (b64val c2).bind fun v2 =>
    if c3 = 61 then
      if c4 = 61 && rest.isEmpty then some [v1 * 4 + v2 / 16] else none
    else
      (b64val c3).bind fun v3 =>
      if c4 = 61 then
        if rest.isEmpty then some [v1 * 4 + v2 / 16, v2 % 16 * 16 + v3 / 4]
        else none
      else
        (b64val c4).bind fun v4 =>
        (b64decodeQuads rest).map
          (fun tl => (v1 * 4 + v2 / 16) :: (v2 % 16 * 16 + v3 / 4) ::
            (v3 % 4 * 64 + v4) :: tl)
  | [] => some []
  | _ => none

/-- `base64.b64decode` on bytes: discard bytes outside the alphabet, then
decode; `none` models a raised `binascii.Error`. -/
def b64decodePy (s : Str) : Option Str := b64decodeQuads (s.filter b64keep)

/-- One transition of the UTF-8 acceptor (RFC 3629): state 0 expects a
leading byte; states 1-7 encode how many continuation bytes remain and the
restricted range of the next byte. -/
def utf8DFA (st b : Nat) : Option Nat :=
  if st = 0 then
    if b < 128 then some 0
    else if 194 ≤ b ∧ b ≤ 223 then some 1
    else if b = 224 then some 3
    else if (225 ≤ b ∧ b ≤ 236) ∨ b = 238 ∨ b = 239 then some 2
    else if b = 237 then some 4
    else if b = 240 then some 6
    else if 241 ≤ b ∧ b ≤ 243 then some 5
    else if b = 244 then some 7
    else none
  else if st = 1 then if 128 ≤ b ∧ b ≤ 191 then some 0 else none
  else if st = 2 then if 128 ≤ b ∧ b ≤ 191 then some 1 else none
  else if st = 3 then if 160 ≤ b ∧ b ≤ 191 then some 1 else none
  else if st = 4 then if 128 ≤ b ∧ b ≤ 159 then some 1 else none
  else if st = 5 then if 128 ≤ b ∧ b ≤ 191 then some 2 else none
  else if st = 6 then if 144 ≤ b ∧ b ≤ 191 then some 2 else none
  else if st = 7 then if 128 ≤ b ∧ b ≤ 143 then some 2 else none
  else none

/-- Run the UTF-8 acceptor from a given state. -/
def validUTF8From (st : Nat) : Str → Bool
  | [] => st == 0
  | b :: bs =>
    match utf8DFA st b with
    | some st1 => validUTF8From st1 bs
    | none => false

/-- A byte sequence is a valid UTF-8 encoding (what strict
`bytes.decode()` accepts). -/
def validUTF8 (bs : Str) : Bool := validUTF8From 0 bs

/-- Python `bytes.decode()`: the identity on valid UTF-8 byte sequences,
`none` (a raised `UnicodeDecodeError`) otherwise. -/
def pyDecode (bs : Str) : Option Str := if validUTF8 bs then some bs else none

/-!
SHA-256 and HMAC-SHA256, modelling `hashlib.sha256` and
`hmac.new(key, msg, hashlib.sha256)` from the Python standard library
(FIPS 180-4).  All word arithmetic is `Nat` reduced modulo `2 ^ 32`.
The round constants are derived, as in the standard, from the fractional
parts of the cube roots (respectively square roots) of the first primes.
-/

/-- The first 64 primes, sources of the SHA-256 constants. -/
def firstPrimes : List Nat :=
  [2, 3, 5, 7, 11, 13, 17, 19, 23, 29, 31, 37, 41, 43, 47, 53, 59, 61, 67,
   71, 73, 79, 83, 89, 97, 101, 103, 107, 109, 113, 127, 131, 137, 139, 149,
   151, 157, 163, 167, 173, 179, 181, 191, 193, 197, 199, 211, 223, 227, 229,
   233, 239, 241, 251, 257, 263, 269, 271, 277, 281, 283, 293, 307, 311]

/-- Fuelled binary search for the integer cube root. -/
def icbrtAux (n : Nat) : Nat → Nat → Nat → Nat
  | 0, lo, _ => lo
  | f + 1, lo, hi =>
    if hi ≤ lo + 1 then lo
    else
      let m := (lo + hi) / 2
      if m ^ 3 ≤ n then icbrtAux n f m hi else icbrtAux n f lo m

/-- Integer cube root. -/
def icbrt (n : Nat) : Nat := icbrtAux n 200 0 (n + 1)

/-- The 64 SHA-256 round constants: the first 32 bits of the fractional
parts of the cube roots of the first 64 primes. -/
def K256 : List Nat :=
  firstPrimes.map (fun p => icbrt (p * 2 ^ 96) % 4294967296)

/-- The first 32 bits of the fractional part of the square root of `p`. -/
def sqrtFrac (p : Nat) : Nat := Nat.sqrt (p * 2 ^ 64) % 4294967296

/-- The eight working variables of the SHA-256 compression function. -/
structure Hash8 where
  a : Nat
  b : Nat
  c : Nat
  d : Nat
  e : Nat
  f : Nat
  g : Nat
  h : Nat

/-- The SHA-256 initial hash value. -/
def sha256init : Hash8 :=
  ⟨sqrtFrac 2, sqrtFrac 3, sqrtFrac 5, sqrtFrac 7,
   sqrtFrac 11, sqrtFrac 13, sqrtFrac 17, sqrtFrac 19⟩

/-- Right rotation of a 32-bit word (arithmetic form). -/
def rotr (k x : Nat) : Nat := x % 2 ^ k * 2 ^ (32 - k) + x / 2 ^ k

/-- SHA-256 `Ch` function. -/
def chFn (x y z : Nat) : Nat := (x &&& y) ^^^ ((x ^^^ 4294967295) &&& z)

/-- SHA-256 `Maj` function. -/
def majFn (x y z : Nat) : Nat := (x &&& y) ^^^ (x &&& z) ^^^ (y &&& z)

/-- SHA-256 upper-case sigma 0. -/
def bigSigma0 (x : Nat) : Nat := rotr 2 x ^^^ rotr 13 x ^^^ rotr 22 x

/-- SHA-256 upper-case sigma 1. -/
def bigSigma1 (x : Nat) : Nat := rotr 6 x ^^^ rotr 11 x ^^^ rotr 25 x

/-- SHA-256 lower-case sigma 0. -/
def smallSigma0 (x : Nat) : Nat := rotr 7 x ^^^ rotr 18 x ^^^ x / 2 ^ 3

/-- SHA-256 lower-case sigma 1. -/
def smallSigma1 (x : Nat) : Nat := rotr 17 x ^^^ rotr 19 x ^^^ x / 2 ^ 10

/-- Big-endian bytes of a number, fixed width in bytes. -/
def natToBytesBE : Nat → Nat → Str
  | 0, _ => []
  | k + 1, n => natToBytesBE k (n / 256) ++ [n % 256]

/-- SHA-256 message padding: append `0x80`, zeros to 56 mod 64, and the
bit length as eight big-endian bytes. -/
def sha256pad (msg : Str) : Str :=
  let L := msg.length
  let z := (119 - L % 64) % 64
  msg ++ 128 :: List.replicate z 0 ++ natToBytesBE 8 (8 * L)

/-- Parse bytes into big-endian 32-bit words. -/
def bytesToWordsBE : Str → List Nat
  | a :: b :: c :: d :: rest =>
      (((a * 256 + b) * 256 + c) * 256 + d) :: bytesToWordsBE rest
  | _ => []

/-- Extend the 16 block words to the 64 schedule words. -/
def extendSchedule : Nat → List Nat → List Nat
  | 0, ws => ws
  | k + 1, ws =>
    let t := ws.length
    let w := (smallSigma1 (ws.getD (t - 2) 0) + ws.getD (t - 7) 0 +
              smallSigma0 (ws.getD (t - 15) 0) + ws.getD (t - 16) 0) % 4294967296
    extendSchedule k (ws ++ [w])

/-- One round of the SHA-256 compression function. -/
def sha256round (kc wc : Nat) (s : Hash8) : Hash8 :=
  let T1 := (s.h + bigSigma1 s.e + chFn s.e s.f s.g + kc + wc) % 4294967296
  let T2 := (bigSigma0 s.a + majFn s.a s.b s.c) % 4294967296
  ⟨(T1 + T2) % 4294967296, s.a, s.b, s.c, (s.d + T1) % 4294967296,
   s.e, s.f, s.g⟩

/-- Compress one 64-byte block into the running hash value. -/
def compressBlock (H : Hash8) (block : Str) : Hash8 :=
  let ws := extendSchedule 48 (bytesToWordsBE block)
  let s := (List.zip K256 ws).foldl (fun st kw => sha256round kw.1 kw.2 st) H
  ⟨(H.a + s.a) % 4294967296, (H.b + s.b) % 4294967296,
   (H.c + s.c) % 4294967296, (H.d + s.d) % 4294967296,
   (H.e + s.e) % 4294967296, (H.f + s.f) % 4294967296,
   (H.g + s.g) % 4294967296, (H.h + s.h) % 4294967296⟩

/-- Split a byte string into 64-byte blocks. -/
def chunks64 : Str → List Str
  | [] => []
  | b :: bs => (b :: bs).take 64 :: chunks64 (bs.drop 63)
  termination_by l => l.length
  decreasing_by simp [List.length_drop]; omega

/-- `hashlib.sha256(msg).digest()`: the 32-byte SHA-256 digest. -/
def sha256 (msg : Str) : Str :=
  let final := (chunks64 (sha256pad msg)).foldl compressBlock sha256init
  [final.a, final.b, final.c, final.d, final.e, final.f, final.g,
   final.h].foldr (fun w acc => natToBytesBE 4 w ++ acc) []

/-- Lower-case hex digit byte of a value below 16. -/
def hexChar (n : Nat) : Nat := if n < 10 then 48 + n else 87 + n

/-- `.hexdigest()`: lower-case hex bytes of a digest. -/
def bytesToHex (bs : Str) : Str :=
  bs.foldr (fun b acc => hexChar (b / 16) :: hexChar (b % 16) :: acc) []

/-- `hmac.new(key, msg, hashlib.sha256).digest()` (RFC 2104, block size
64): hash an over-long key, zero-pad, then the nested keyed hashes. -/
def hmacSha256 (key msg : Str) : Str :=
  let k0 := if 64 < key.length then sha256 key else key
  let kp := k0 ++ List.replicate (64 - k0.length) 0
  sha256 ((kp.map (fun b => b ^^^ 92)) ++
    sha256 ((kp.map (fun b => b ^^^ 54)) ++ msg))

/-- The signature the server recomputes in `MockServer.send_message`
(and that `MockClient.sign` produces):
`hmac.new(key, content, hashlib.sha256).hexdigest()[:64]`. -/
def expectedSignature (key content : Str) : Str :=
  (bytesToHex (hmacSha256 key content)).take 64



/-!
The protocol operations of `demo_complete.py`.
-/

/-- `MockClient.encrypt(message, recipient_key)`:
`f"encrypted_{base64.b64encode(message.encode()).decode()}_{recipient_key[:8]}"`.
(The inner `.decode()` always succeeds: base64 output is ASCII.) -/
def mockEncrypt (message recipient_key : Str) : Str :=
  ascii "encrypted_" ++ b64encode message ++ ascii "_" ++ recipient_key.take 8

/-- `MockClient.decrypt(encrypted_msg, sender_key)`: checks the
`encrypted_` marker, splits on underscores, base64-decodes the second
piece and UTF-8 decodes it; otherwise returns the string
`DECRYPTION_FAILED`.  `none` models a raised exception
(`binascii.Error` or `UnicodeDecodeError`); the `sender_key` argument is
never read by the source. -/
def mockDecrypt (encrypted_msg sender_key : Str) : Option Str :=
  if startsWith (ascii "encrypted_") encrypted_msg then
    let parts := pySplit 95 encrypted_msg
    if 3 ≤ parts.length then
      (b64decodePy (parts.getD 1 [])).bind pyDecode
    else some (ascii "DECRYPTION_FAILED")
  else some (ascii "DECRYPTION_FAILED")

/-- A stored message dictionary of `MockServer.send_message`. -/
structure Record where
  id : Str
  sender_id : Str
  recipient_id : Str
  content : Str
  timestamp : Str
  signature : Str
deriving DecidableEq

/-- The response dictionaries returned by the `MockServer` methods,
as a closed variant type over their `"type"` tags. -/
inductive Response where
  | Registered (server_public_key : Str)
  | Error (message : Str)
  | MessageSent (message_id : Str)
deriving DecidableEq

/-- Python dict lookup on an association list with unique keys. -/
def dictLookup (d : List (Str × Str)) (k : Str) : Option Str :=
  match d with
  | [] => none
  | (k1, v) :: rest => if k1 = k then some v else dictLookup rest k

/-- Python dict assignment `d[k] = v`: overwrite in place or append. -/
def dictInsert (d : List (Str × Str)) (k v : Str) : List (Str × Str) :=
  match d with
  | [] => [(k, v)]
  | (k1, v1) :: rest =>
    if k1 = k then (k, v) :: rest else (k1, v1) :: dictInsert rest k v

/-- The mutable state of a `MockServer`: `self.clients` (client_id to
public key) and `self.messages` (the stored records, in append order). -/
structure ServerState where
  clients : List (Str × Str)
  messages : List Record
deriving DecidableEq

/-- `MockServer.__init__`. -/
def mockServerInit : ServerState := ⟨[], []⟩

/-- `MockServer.register_client(client_id, public_key)`: store the key
unconditionally and return the `Registered` response. -/
def registerClient (s : ServerState) (client_id public_key : Str) :
    ServerState × Response :=
  ({ s with clients := dictInsert s.clients client_id public_key },
   Response.Registered (ascii "server_ed25519_key_abcdef1234567890"))

/-- `MockServer.send_message(sender_id, recipient_id, encrypted_content,
signature, message_id)`.  The `now` argument carries the value of
`datetime.now().isoformat()`. -/
def sendMessage (s : ServerState)
    (sender_id recipient_id encrypted_content sig message_id now : Str) :
    ServerState × Response :=
  match dictLookup s.clients sender_id with
  | none => (s, Response.Error (ascii "Unknown sender: " ++ sender_id))
  | some pk =>
    if sig ≠ expectedSignature pk encrypted_content then
      (s, Response.Error (ascii "Invalid signature"))
    else
      ({ s with messages := s.messages ++
          [⟨message_id, sender_id, recipient_id, encrypted_content, now, sig⟩] },
       Response.MessageSent message_id)

/-- `MockServer.get_messages_for_client(client_id)`: the returned pair is
the server state after the call (the method reads but never writes) and
the returned list. -/
def getMessagesForClient (s : ServerState) (client_id : Str) :
    ServerState × List Record :=
  (s, s.messages.filter (fun m => m.recipient_id == client_id))


/-!
Lemmas about the byte-string primitives.
-/

theorem b64val_getD : ∀ v, v < 64 → b64val (b64chars.getD v 0) = some v := by
  decide

theorem b64chars_getD_ne61 : ∀ v, v < 64 → b64chars.getD v 0 ≠ 61 := by
  decide

theorem b64chars_getD_ne95 (v : Nat) : b64chars.getD v 0 ≠ 95 := by
  rcases Nat.lt_or_ge v 64 with h | h
  · exact (by decide : ∀ w, w < 64 → b64chars.getD w 0 ≠ 95) v h
  · rw [List.getD_eq_default]
    · decide
    · simpa using h

theorem b64encode_sextets :
    ∀ (bs : Str), (∀ b ∈ bs, b < 256) → ∀ x, x ∈ b64encode bs →
      x = 61 ∨ ∃ v, v < 64 ∧ x = b64chars.getD v 0
  | [], _, x, hx => by simp [b64encode] at hx
  | [a], hb, x, hx => by
      have ha : a < 256 := hb a (by simp)
      simp only [b64encode, List.mem_cons, List.not_mem_nil, or_false] at hx
      rcases hx with h | h | h | h
      · exact Or.inr ⟨a / 4, by omega, h⟩
      · exact Or.inr ⟨a % 4 * 16, by omega, h⟩
      · exact Or.inl h
      · exact Or.inl h
  | [a, b], hb, x, hx => by
      have ha : a < 256 := hb a (by simp)
      have hbb : b < 256 := hb b (by simp)
      simp only [b64encode, List.mem_cons, List.not_mem_nil, or_false] at hx
      rcases hx with h | h | h | h
      · exact Or.inr ⟨a / 4, by omega, h⟩
      · exact Or.inr ⟨a % 4 * 16 + b / 16, by omega, h⟩
      · exact Or.inr ⟨b % 16 * 4, by omega, h⟩
      · exact Or.inl h
  | a :: b :: d :: rest, hb, x, hx => by
      have ha : a < 256 := hb a (by simp)
      have hbb : b < 256 := hb b (by simp)
      have hd : d < 256 := hb d (by simp)
      simp only [b64encode, List.mem_cons] at hx
      rcases hx with h | h | h | h | h
      · exact Or.inr ⟨a / 4, by omega, h⟩
      · exact Or.inr ⟨a % 4 * 16 + b / 16, by omega, h⟩
      · exact Or.inr ⟨b % 16 * 4 + d / 64, by omega, h⟩
      · exact Or.inr ⟨d % 64, by omega, h⟩
      · exact b64encode_sextets rest
          (fun y hy => hb y (by simp [hy]))
          x h

theorem b64encode_keep (bs : Str) (hb : ∀ b ∈ bs, b < 256) :
    ∀ x ∈ b64encode bs, b64keep x = true := by
  intro x hx
  rcases b64encode_sextets bs hb x hx with h | ⟨v, hv, h⟩
  · simp [b64keep, h]
  · rw [h]; unfold b64keep; rw [b64val_getD v hv]; simp

theorem b64encode_ne95 (bs : Str) (hb : ∀ b ∈ bs, b < 256) :
    ∀ x ∈ b64encode bs, x ≠ 95 := by
  intro x hx
  rcases b64encode_sextets bs hb x hx with h | ⟨v, hv, h⟩
  · omega
  · rw [h]; exact b64chars_getD_ne95 v

theorem b64_roundtrip_quads :
    ∀ (bs : Str), (∀ b ∈ bs, b < 256) → b64decodeQuads (b64encode bs) = some bs
  | [], _ => rfl
  | [a], hb => by
      have ha : a < 256 := hb a (by simp)
      have e1 : b64val (b64chars.getD (a / 4) 0) = some (a / 4) :=
        b64val_getD _ (by omega)
      have e2 : b64val (b64chars.getD (a % 4 * 16) 0) = some (a % 4 * 16) :=
        b64val_getD _ (by omega)
      simp only [b64encode, b64decodeQuads]
      rw [e1, e2]
      simp only [Option.bind]
      simp
      omega
  | [a, b], hb => by
      have ha : a < 256 := hb a (by simp)
      have hbb : b < 256 := hb b (by simp)
      have e1 : b64val (b64chars.getD (a / 4) 0) = some (a / 4) :=
        b64val_getD _ (by omega)
      have e2 : b64val (b64chars.getD (a % 4 * 16 + b / 16) 0) =
          some (a % 4 * 16 + b / 16) := b64val_getD _ (by omega)
      have e3 : b64val (b64chars.getD (b % 16 * 4) 0) = some (b % 16 * 4) :=
        b64val_getD _ (by omega)
      have n3 : b64chars.getD (b % 16 * 4) 0 ≠ 61 :=
        b64chars_getD_ne61 _ (by omega)
      simp only [b64encode, b64decodeQuads]
      rw [e1, e2]
      simp only [Option.bind]
      rw [if_neg n3, e3]
      simp only [Option.bind]
      simp
      constructor <;> omega
  | a :: b :: d :: rest, hb => by
      have ha : a < 256 := hb a (by simp)
      have hbb : b < 256 := hb b (by simp)
      have hd : d < 256 := hb d (by simp)
      have e1 : b64val (b64chars.getD (a / 4) 0) = some (a / 4) :=
        b64val_getD _ (by omega)
      have e2 : b64val (b64chars.getD (a % 4 * 16 + b / 16) 0) =
          some (a % 4 * 16 + b / 16) := b64val_getD _ (by omega)
      have e3 : b64val (b64chars.getD (b % 16 * 4 + d / 64) 0) =
          some (b % 16 * 4 + d / 64) := b64val_getD _ (by omega)
      have e4 : b64val (b64chars.getD (d % 64) 0) = some (d % 64) :=
        b64val_getD _ (by omega)
      have n3 : b64chars.getD (b % 16 * 4 + d / 64) 0 ≠ 61 :=
        b64chars_getD_ne61 _ (by omega)
      have n4 : b64chars.getD (d % 64) 0 ≠ 61 :=
        b64chars_getD_ne61 _ (by omega)
      have ih := b64_roundtrip_quads rest (fun y hy => hb y (by simp [hy]))
      simp only [b64encode, b64decodeQuads]
      rw [e1, e2]
      simp only [Option.bind]
      rw [if_neg n3, e3]
      simp only [Option.bind]
      rw [if_neg n4, e4]
      simp only [Option.bind]
      rw [ih]
      simp only [Option.map_some', Option.some.injEq, List.cons.injEq]
      exact ⟨by omega, by omega, by omega, trivial⟩

theorem b64_roundtrip (bs : Str) (hb : ∀ b ∈ bs, b < 256) :
    b64decodePy (b64encode bs) = some bs := by
  unfold b64decodePy
  rw [List.filter_eq_self.mpr (b64encode_keep bs hb), b64_roundtrip_quads bs hb]

theorem pySplit_length_pos (sep : Nat) (l : Str) : 0 < (pySplit sep l).length := by
  induction l with
  | nil => simp [pySplit]
  | cons b bs ih =>
    simp only [pySplit]
    split
    · simp
    · split
      · simp
      · simp

theorem pySplit_append (sep : Nat) (xs ys : Str) (h : ∀ x ∈ xs, x ≠ sep) :
    pySplit sep (xs ++ sep :: ys) = xs :: pySplit sep ys := by
  induction xs with
  | nil => simp [pySplit]
  | cons x xs ih =>
    simp only [List.cons_append, pySplit]
    rw [if_neg (h x (by simp)), List.append_eq,
      ih (fun y hy => h y (by simp [hy]))]

theorem startsWith_append (p r : Str) : startsWith p (p ++ r) = true := by
  induction p with
  | nil => rfl
  | cons x xs ih => simp [startsWith, ih]

set_option maxHeartbeats 1000000 in
theorem utf8DFA_lt {st b st1 : Nat} (h : utf8DFA st b = some st1) : b < 256 := by
  unfold utf8DFA at h
  split_ifs at h <;> omega

theorem validUTF8From_lt :
    ∀ (l : Str) (st : Nat), validUTF8From st l = true → ∀ b ∈ l, b < 256 := by
  intro l
  induction l with
  | nil => intro st _ b hb; simp at hb
  | cons x xs ih =>
    intro st h b hb
    simp only [validUTF8From] at h
    cases hd : utf8DFA st x with
    | none => rw [hd] at h; simp at h
    | some st1 =>
      rw [hd] at h
      rcases List.mem_cons.mp hb with h1 | h1
      · subst h1; exact utf8DFA_lt hd
      · exact ih st1 h b h1

theorem validUTF8_lt (bs : Str) (h : validUTF8 bs = true) : ∀ b ∈ bs, b < 256 :=
  validUTF8From_lt bs 0 h

/-- Any well-formed envelope decrypts to the base64 payload: the decoder
checks only the shape of the string, never its origin. -/
theorem decrypt_wellformed (bs k sk : Str) (h : validUTF8 bs = true) :
    mockDecrypt (ascii "encrypted_" ++ b64encode bs ++ ascii "_" ++ k) sk =
      some bs := by
  have hb : ∀ b ∈ bs, b < 256 := validUTF8_lt bs h
  have hshape : ascii "encrypted_" ++ b64encode bs ++ ascii "_" ++ k =
      ascii "encrypted" ++ 95 :: (b64encode bs ++ 95 :: k) := by
    rw [show ascii "encrypted_" = ascii "encrypted" ++ [95] from rfl,
      show ascii "_" = [95] from rfl]
    simp
  have hsplit : pySplit 95 (ascii "encrypted_" ++ b64encode bs ++ ascii "_" ++ k) =
      ascii "encrypted" :: b64encode bs :: pySplit 95 k := by
    rw [hshape, pySplit_append 95 (ascii "encrypted") _ (by decide),
      pySplit_append 95 (b64encode bs) k (b64encode_ne95 bs hb)]
  have hsw : startsWith (ascii "encrypted_")
      (ascii "encrypted_" ++ b64encode bs ++ ascii "_" ++ k) = true := by
    have := startsWith_append (ascii "encrypted_") (b64encode bs ++ ascii "_" ++ k)
    simpa using this
  unfold mockDecrypt
  rw [hsw]
  simp only [if_true, hsplit]
  rw [if_pos (by simp; exact pySplit_length_pos 95 k)]
  simp only [List.getD_cons_succ, List.getD_cons_zero]
  rw [b64_roundtrip bs hb]
  simp [pyDecode, h]

theorem dictLookup_dictInsert_self (d : List (Str × Str)) (k v : Str) :
    dictLookup (dictInsert d k v) k = some v := by
  induction d with
  | nil => simp [dictInsert, dictLookup]
  | cons p rest ih =>
    obtain ⟨k1, v1⟩ := p
    by_cases hk : k1 = k
    · simp [dictInsert, hk, dictLookup]
    · simp [dictInsert, hk, dictLookup, ih]

theorem sendMessage_unknown (s : ServerState)
    (sender_id recipient_id content sig mid now : Str)
    (h : dictLookup s.clients sender_id = none) :
    sendMessage s sender_id recipient_id content sig mid now =
      (s, Response.Error (ascii "Unknown sender: " ++ sender_id)) := by
  simp [sendMessage, h]

theorem sendMessage_badsig (s : ServerState)
    (sender_id recipient_id content sig mid now pk : Str)
    (h : dictLookup s.clients sender_id = some pk)
    (hs : sig ≠ expectedSignature pk content) :
    sendMessage s sender_id recipient_id content sig mid now =
      (s, Response.Error (ascii "Invalid signature")) := by
  simp [sendMessage, h, hs]

theorem sendMessage_ok (s : ServerState)
    (sender_id recipient_id content sig mid now pk : Str)
    (h : dictLookup s.clients sender_id = some pk)
    (hs : sig = expectedSignature pk content) :
    sendMessage s sender_id recipient_id content sig mid now =
      ({ s with messages := s.messages ++
          [⟨mid, sender_id, recipient_id, content, now, sig⟩] },
       Response.MessageSent mid) := by
  simp [sendMessage, h, hs]

/-!
The claims.
-/

/-- C1: for every plaintext string P (modelled by its UTF-8 bytes) and
every contact key K, decrypting the result of encrypting P for K with
MockClient.decrypt, under any sender key argument, returns exactly P. -/
theorem C1_encrypt_decrypt_roundtrip (P K SK : Str) (h : validUTF8 P = true) :
    mockDecrypt (mockEncrypt P K) SK = some P := by
  unfold mockEncrypt
  exact decrypt_wellformed P (K.take 8) SK h

/-- Witness for C1 at the plaintext hello. -/
theorem C1_encrypt_decrypt_roundtrip_witness :
    validUTF8 (ascii "hello") = true ∧
    mockDecrypt
      (mockEncrypt (ascii "hello") (ascii "isaac_x25519_key_0123456789abcdef"))
      (ascii "sugar_x25519_key_0123456789abcdef") = some (ascii "hello") :=
  ⟨by decide, C1_encrypt_decrypt_roundtrip _ _ _ (by decide)⟩

/-- C2: for every sender_id absent from the registry,
MockServer.send_message returns the unknown-sender Error response and
leaves the server state, in particular the messages store, unchanged. -/
theorem C2_unknown_sender_rejected (s : ServerState)
    (sender_id recipient_id content sig mid now : Str)
    (h : dictLookup s.clients sender_id = none) :
    (sendMessage s sender_id recipient_id content sig mid now).2 =
      Response.Error (ascii "Unknown sender: " ++ sender_id) ∧
    (sendMessage s sender_id recipient_id content sig mid now).1.messages =
      s.messages ∧
    (sendMessage s sender_id recipient_id content sig mid now).1 = s := by
  rw [sendMessage_unknown s sender_id recipient_id content sig mid now h]
  exact ⟨rfl, rfl, rfl⟩

/-- Witness for C2 on the freshly initialized server. -/
theorem C2_unknown_sender_rejected_witness :
    dictLookup mockServerInit.clients (ascii "mallory") = none ∧
    ((sendMessage mockServerInit (ascii "mallory") (ascii "bob") (ascii "ct")
        (ascii "sig") (ascii "m1") (ascii "t1")).2 =
      Response.Error (ascii "Unknown sender: " ++ ascii "mallory") ∧
    (sendMessage mockServerInit (ascii "mallory") (ascii "bob") (ascii "ct")
        (ascii "sig") (ascii "m1") (ascii "t1")).1.messages =
      mockServerInit.messages ∧
    (sendMessage mockServerInit (ascii "mallory") (ascii "bob") (ascii "ct")
        (ascii "sig") (ascii "m1") (ascii "t1")).1 = mockServerInit) :=
  ⟨rfl, C2_unknown_sender_rejected mockServerInit (ascii "mallory") (ascii "bob")
    (ascii "ct") (ascii "sig") (ascii "m1") (ascii "t1") rfl⟩

/-- C3: for a registered sender, send_message compares the supplied
signature with the HMAC-SHA256 signature recomputed from the registry
entry over the encrypted content; on mismatch it returns the
invalid-signature Error and leaves the state unchanged, on match it
returns MessageSent with the supplied message id and appends exactly the
one new record. -/
theorem C3_signature_gate (s : ServerState)
    (sender_id recipient_id content sig mid now pk : Str)
    (h : dictLookup s.clients sender_id = some pk) :
    sendMessage s sender_id recipient_id content sig mid now =
      if sig = expectedSignature pk content then
        ({ s with messages := s.messages ++
            [⟨mid, sender_id, recipient_id, content, now, sig⟩] },
         Response.MessageSent mid)
      else (s, Response.Error (ascii "Invalid signature")) := by
  by_cases hs : sig = expectedSignature pk content
  · rw [if_pos hs]
    exact sendMessage_ok s sender_id recipient_id content sig mid now pk h hs
  · rw [if_neg hs]
    exact sendMessage_badsig s sender_id recipient_id content sig mid now pk h hs

/-- Witness for C3 on a one-client registry. -/
theorem C3_signature_gate_witness :
    dictLookup (ServerState.mk [(ascii "alice", ascii "alicekey")] []).clients
      (ascii "alice") = some (ascii "alicekey") ∧
    sendMessage (ServerState.mk [(ascii "alice", ascii "alicekey")] [])
        (ascii "alice") (ascii "bob") (ascii "ct") (ascii "sig") (ascii "m1")
        (ascii "t1") =
      if ascii "sig" = expectedSignature (ascii "alicekey") (ascii "ct") then
        ({ ServerState.mk [(ascii "alice", ascii "alicekey")] [] with
            messages := [] ++ [⟨ascii "m1", ascii "alice", ascii "bob",
              ascii "ct", ascii "t1", ascii "sig"⟩] },
         Response.MessageSent (ascii "m1"))
      else (ServerState.mk [(ascii "alice", ascii "alicekey")] [],
        Response.Error (ascii "Invalid signature")) :=
  ⟨by decide, C3_signature_gate (ServerState.mk [(ascii "alice", ascii "alicekey")] [])
    (ascii "alice") (ascii "bob") (ascii "ct") (ascii "sig") (ascii "m1")
    (ascii "t1") (ascii "alicekey") (by decide)⟩

/-- C5: retrieving messages for a client returns exactly the stored
records whose recipient_id equals the client id, as the order-preserving
filter of the store (a subsequence of it, hence in insertion order); the
state after the call is the state before it, and a client with no
messages gets the empty list, not an error. -/
theorem C5_get_messages_filter (s : ServerState) (client_id : Str) :
    (getMessagesForClient s client_id).1 = s ∧
    (getMessagesForClient s client_id).2 =
      s.messages.filter (fun m => m.recipient_id == client_id) ∧
    List.Sublist (getMessagesForClient s client_id).2 s.messages ∧
    (∀ m, m ∈ (getMessagesForClient s client_id).2 ↔
      m ∈ s.messages ∧ m.recipient_id = client_id) := by
  refine ⟨rfl, rfl, List.filter_sublist _, ?_⟩
  intro m
  simp [getMessagesForClient, List.mem_filter]

/-- C8: MockClient.decrypt never reads its sender key argument: the
result is the same for any two key arguments. -/
theorem C8_decrypt_ignores_key (c k1 k2 : Str) :
    mockDecrypt c k1 = mockDecrypt c k2 := rfl

/-- C9: MockServer.register_client unconditionally stores the supplied
public key under the client id (overwriting any previous entry, so the
last write wins) and always answers with the Registered response; the
response type has no AlreadyRegistered case and the messages store is
untouched. -/
theorem C9_register_overwrites (s : ServerState) (client_id public_key : Str) :
    (registerClient s client_id public_key).2 =
      Response.Registered (ascii "server_ed25519_key_abcdef1234567890") ∧
    dictLookup (registerClient s client_id public_key).1.clients client_id =
      some public_key ∧
    (registerClient s client_id public_key).1.messages = s.messages :=
  ⟨rfl, dictLookup_dictInsert_self s.clients client_id public_key, rfl⟩

/-- C10: the messages store is append-only across send_message: the new
store is the old store extended by at most one record, and the registry
is untouched. -/
theorem C10_append_only (s : ServerState)
    (sender_id recipient_id content sig mid now : Str) :
    ∃ t : List Record,
      (sendMessage s sender_id recipient_id content sig mid now).1.messages =
        s.messages ++ t ∧ t.length ≤ 1 ∧
      (sendMessage s sender_id recipient_id content sig mid now).1.clients =
        s.clients := by
  rcases hl : dictLookup s.clients sender_id with _ | pk
  · exact ⟨[], by simp [sendMessage, hl]⟩
  · by_cases hs : sig = expectedSignature pk content
    · exact ⟨[⟨mid, sender_id, recipient_id, content, now, sig⟩],
        by simp [sendMessage, hl, hs]⟩
    · exact ⟨[], by simp [sendMessage, hl, hs]⟩

/-- C4 counterexample: on a server whose store already holds a record
with message id m1, a send from a registered sender with a valid
signature and the same id m1 is answered with MessageSent, not an Error,
and afterwards two stored records carry the id m1. -/
theorem C4_counterexample :
    (∃ r ∈ (ServerState.mk [(ascii "alice", ascii "alicekey")]
        [⟨ascii "m1", ascii "alice", ascii "bob", ascii "c0", ascii "t0",
          ascii "s0"⟩]).messages, r.id = ascii "m1") ∧
    (sendMessage (ServerState.mk [(ascii "alice", ascii "alicekey")]
        [⟨ascii "m1", ascii "alice", ascii "bob", ascii "c0", ascii "t0",
          ascii "s0"⟩])
      (ascii "alice") (ascii "bob") (ascii "c1")
      (expectedSignature (ascii "alicekey") (ascii "c1"))
      (ascii "m1") (ascii "t1")).2 = Response.MessageSent (ascii "m1") ∧
    ((sendMessage (ServerState.mk [(ascii "alice", ascii "alicekey")]
        [⟨ascii "m1", ascii "alice", ascii "bob", ascii "c0", ascii "t0",
          ascii "s0"⟩])
      (ascii "alice") (ascii "bob") (ascii "c1")
      (expectedSignature (ascii "alicekey") (ascii "c1"))
      (ascii "m1") (ascii "t1")).1.messages.countP
        (fun r => r.id == ascii "m1")) = 2 := by
  have hsend := sendMessage_ok
    (ServerState.mk [(ascii "alice", ascii "alicekey")]
      [⟨ascii "m1", ascii "alice", ascii "bob", ascii "c0", ascii "t0",
        ascii "s0"⟩])
    (ascii "alice") (ascii "bob") (ascii "c1")
    (expectedSignature (ascii "alicekey") (ascii "c1"))
    (ascii "m1") (ascii "t1") (ascii "alicekey") (by decide) rfl
  refine ⟨⟨⟨ascii "m1", ascii "alice", ascii "bob", ascii "c0", ascii "t0",
    ascii "s0"⟩, by simp, rfl⟩, ?_, ?_⟩
  · rw [hsend]
  · rw [hsend]
    simp [List.countP_cons]

/-- C4 as amended: a duplicate message id is not detected; a send from a
registered sender with a valid signature and an id already present in
the store is accepted with MessageSent and appends a second record with
that id. -/
theorem C4_duplicate_id_accepted (s : ServerState)
    (sender_id recipient_id content sig mid now pk : Str)
    (h : dictLookup s.clients sender_id = some pk)
    (hs : sig = expectedSignature pk content)
    (hdup : ∃ r ∈ s.messages, r.id = mid) :
    (sendMessage s sender_id recipient_id content sig mid now).2 =
      Response.MessageSent mid ∧
    (sendMessage s sender_id recipient_id content sig mid now).1.messages =
      s.messages ++ [⟨mid, sender_id, recipient_id, content, now, sig⟩] ∧
    2 ≤ ((sendMessage s sender_id recipient_id content sig mid now).1.messages.countP
      (fun r => r.id == mid)) := by
  rw [sendMessage_ok s sender_id recipient_id content sig mid now pk h hs]
  refine ⟨rfl, rfl, ?_⟩
  obtain ⟨r, hr, hrid⟩ := hdup
  have h1 : 0 < s.messages.countP (fun r => r.id == mid) :=
    List.countP_pos_iff.mpr ⟨r, hr, by simp [hrid]⟩
  rw [List.countP_append]
  have h2 : (([⟨mid, sender_id, recipient_id, content, now, sig⟩] :
      List Record).countP (fun r => r.id == mid)) = 1 := by simp
  omega

/-- Witness for the amended C4 on a concrete one-record store. -/
theorem C4_duplicate_id_accepted_witness :
    dictLookup (ServerState.mk [(ascii "alice", ascii "alicekey")]
      [⟨ascii "m2", ascii "alice", ascii "bob", ascii "c0", ascii "t0",
        ascii "s0"⟩]).clients (ascii "alice") = some (ascii "alicekey") ∧
    expectedSignature (ascii "alicekey") (ascii "c1") =
      expectedSignature (ascii "alicekey") (ascii "c1") ∧
    (∃ r ∈ (ServerState.mk [(ascii "alice", ascii "alicekey")]
      [⟨ascii "m2", ascii "alice", ascii "bob", ascii "c0", ascii "t0",
        ascii "s0"⟩]).messages, r.id = ascii "m2") ∧
    ((sendMessage (ServerState.mk [(ascii "alice", ascii "alicekey")]
        [⟨ascii "m2", ascii "alice", ascii "bob", ascii "c0", ascii "t0",
          ascii "s0"⟩])
      (ascii "alice") (ascii "bob") (ascii "c1")
      (expectedSignature (ascii "alicekey") (ascii "c1"))
      (ascii "m2") (ascii "t1")).2 = Response.MessageSent (ascii "m2") ∧
    (sendMessage (ServerState.mk [(ascii "alice", ascii "alicekey")]
        [⟨ascii "m2", ascii "alice", ascii "bob", ascii "c0", ascii "t0",
          ascii "s0"⟩])
      (ascii "alice") (ascii "bob") (ascii "c1")
      (expectedSignature (ascii "alicekey") (ascii "c1"))
      (ascii "m2") (ascii "t1")).1.messages =
      (ServerState.mk [(ascii "alice", ascii "alicekey")]
        [⟨ascii "m2", ascii "alice", ascii "bob", ascii "c0", ascii "t0",
          ascii "s0"⟩]).messages ++
        [⟨ascii "m2", ascii "alice", ascii "bob", ascii "c1", ascii "t1",
          expectedSignature (ascii "alicekey") (ascii "c1")⟩] ∧
    2 ≤ ((sendMessage (ServerState.mk [(ascii "alice", ascii "alicekey")]
        [⟨ascii "m2", ascii "alice", ascii "bob", ascii "c0", ascii "t0",
          ascii "s0"⟩])
      (ascii "alice") (ascii "bob") (ascii "c1")
      (expectedSignature (ascii "alicekey") (ascii "c1"))
      (ascii "m2") (ascii "t1")).1.messages.countP
        (fun r => r.id == ascii "m2"))) :=
  ⟨by decide, rfl, ⟨⟨ascii "m2", ascii "alice", ascii "bob", ascii "c0",
      ascii "t0", ascii "s0"⟩, by simp, rfl⟩,
    C4_duplicate_id_accepted
      (ServerState.mk [(ascii "alice", ascii "alicekey")]
        [⟨ascii "m2", ascii "alice", ascii "bob", ascii "c0", ascii "t0",
          ascii "s0"⟩])
      (ascii "alice") (ascii "bob") (ascii "c1")
      (expectedSignature (ascii "alicekey") (ascii "c1"))
      (ascii "m2") (ascii "t1") (ascii "alicekey") (by decide) rfl
      ⟨⟨ascii "m2", ascii "alice", ascii "bob", ascii "c0", ascii "t0",
        ascii "s0"⟩, by simp, rfl⟩⟩

/-- C6: MockClient.encrypt is a pure deterministic function of the
plaintext and the recipient key; in particular two calls on the same
arguments produce the identical envelope below, with no ephemeral key or
nonce anywhere. -/
theorem C6_encrypt_deterministic :
    mockEncrypt (ascii "hello") (ascii "isaac_x25519_key_0123456789abcdef") =
      ascii "encrypted_aGVsbG8=_isaac_x2" := by decide

/-- C7 counterexample: changing the single byte at index 10 of the
envelope produced for the plaintext hello (its ciphertext portion
aGVsbG8= becomes bGVsbG8=) makes decrypt return the altered plaintext
lello, not the DECRYPTION_FAILED marker. -/
theorem C7_counterexample :
    mockEncrypt (ascii "hello") (ascii "isaac_x25519_key_0123456789abcdef") =
      ascii "encrypted_aGVsbG8=_isaac_x2" ∧
    (ascii "encrypted_aGVsbG8=_isaac_x2").length =
      (ascii "encrypted_bGVsbG8=_isaac_x2").length ∧
    ((ascii "encrypted_aGVsbG8=_isaac_x2").zip
      (ascii "encrypted_bGVsbG8=_isaac_x2")).countP
        (fun p => !(p.1 == p.2)) = 1 ∧
    mockDecrypt (ascii "encrypted_bGVsbG8=_isaac_x2")
      (ascii "isaac_x25519_key_0123456789abcdef") = some (ascii "lello") ∧
    ascii "lello" ≠ ascii "DECRYPTION_FAILED" ∧
    ascii "lello" ≠ ascii "hello" :=
  ⟨by decide, by decide, by decide, by decide, by decide, by decide⟩

/-- C7 as amended: MockClient.decrypt performs no integrity check at
all: every well-formed envelope, whatever its origin, decrypts to the
base64 payload it carries, so a tampered ciphertext that stays valid
base64 yields altered plaintext instead of DecryptionFailed. -/
theorem C7_no_integrity_check (bs k sk : Str) (h : validUTF8 bs = true) :
    mockDecrypt (ascii "encrypted_" ++ b64encode bs ++ ascii "_" ++ k) sk =
      some bs :=
  decrypt_wellformed bs k sk h

/-- Witness for the amended C7 at the tampered payload lello. -/
theorem C7_no_integrity_check_witness :
    validUTF8 (ascii "lello") = true ∧
    mockDecrypt (ascii "encrypted_" ++ b64encode (ascii "lello") ++
      ascii "_" ++ ascii "isaac_x2") (ascii "anykey") = some (ascii "lello") :=
  ⟨by decide, C7_no_integrity_check (ascii "lello") (ascii "isaac_x2")
    (ascii "anykey") (by decide)⟩
